import Mathlib

/-!
Verification of the classification core of threepwoods-colly (src/main.go):
the same-origin resolver `isSameDomain`, the CSS `@import` extraction
driven by `cssRegexp`, the per-element crawl handlers that update the
shared `ScanResult`, and the command-line entry behavior of `main`.

Strings are modelled as Lean `String` (lists of characters underneath);
the Go standard-library string helpers used by the source are embedded as
executable list scanners below.
-/

/-! ### Go string primitives (strings.HasPrefix / HasSuffix / Contains) -/

/-- Embeds `strings.HasPrefix` on character lists: `isPref p l` is true
when `p` is an initial segment of `l`. -/
def isPref : List Char → List Char → Bool
  | [], _ => true
  | _ :: _, [] => false
  | a :: as, b :: bs => a = b && isPref as bs

/-- Embeds `strings.Contains` on character lists: true when `sub` occurs
as a contiguous substring of `s`. -/
def containsL : List Char → List Char → Bool
  | [], sub => sub.isEmpty
  | s@(_ :: t), sub => isPref sub s || containsL t sub

/-- Embeds Go `strings.Contains(s, sub)`. -/
def goContains (s sub : String) : Bool := containsL s.data sub.data

/-- Embeds Go `strings.HasPrefix(s, p)`. -/
def goStartsWith (s p : String) : Bool := isPref p.data s.data

/-- Embeds Go `strings.HasSuffix(s, suf)`. -/
def goEndsWith (s suf : String) : Bool := isPref suf.data.reverse s.data.reverse

/-! ### The local-path regular expression of `isSameDomain` (main.go:142)

The source tests `regexp.MatchString("^(/?[a-zA-Z0-9-_.]+)*([#?].*)?$", url)`.
`localScan` is an executable matcher for exactly that anchored pattern:
a sequence of blocks, each an optional slash followed by one or more
characters of the class `[a-zA-Z0-9-_.]`, optionally followed by a suffix
opened by `#` or `?`. In Go, `.` does not match a newline and `$` anchors
at the end of the text, so the suffix body may hold any character except a
newline.  Consequently a match is: segment characters and slashes with no
two adjacent slashes and no trailing slash, then an optional `#`/`?` suffix
free of newlines. -/

/-- The character class `[a-zA-Z0-9-_.]` of the local-path pattern. -/
def isSegChar (c : Char) : Bool := c.isAlphanum || c = '-' || c = '_' || c = '.'

/-- Go regex `.*` matches the remainder only when it has no newline. -/
def noNewline (cs : List Char) : Bool := cs.all (fun c => c != '\n')

/-- Executable matcher for `^(/?[a-zA-Z0-9-_.]+)*([#?].*)?$` (main.go:142). -/
def localScan : List Char → Bool
  | [] => true
  | c :: cs =>
    if c = '#' ∨ c = '?' then noNewline cs
    else if c = '/' then
      match cs with
      | [] => false
      | c2 :: cs2 => isSegChar c2 && localScan cs2
    else isSegChar c && localScan cs

/-- The character list of the literal `"about:blank"` (main.go:155). -/
def aboutBlankChars : List Char := ['a', 'b', 'o', 'u', 't', ':', 'b', 'l', 'a', 'n', 'k']

/-- Embeds `isSameDomain` (main.go:140-159) on character lists: the
local-path regex, then `strings.HasPrefix(url, "//"+domain)`, then
`strings.HasPrefix(url, baseUrl)`, then `url == "about:blank"`. -/
def isSameDomainL (url baseUrl domain : List Char) : Bool :=
  if localScan url then true
  else if isPref ('/' :: '/' :: domain) url then true
  else if isPref baseUrl url then true
  else if url = aboutBlankChars then true
  else false

/-- Embeds `isSameDomain(url, baseUrl, domain)` (main.go:140-159). -/
def isSameDomain (url baseUrl domain : String) : Bool :=
  isSameDomainL url.data baseUrl.data domain.data

/-! ### The `@import` extraction (cssRegexp, main.go:163)

The source compiles `@import\W?(url)?\(?[quote]?([^\x29 quote quote]*)[quote]?\)?`
where the quote classes hold the single- and double-quote characters, and
takes submatch 2 of every match found by `FindAllStringSubmatch`
(main.go:321-323, 353-355).  Go regexp uses leftmost-first matching: a
match starts at each occurrence of the literal `@import`; every later part
of the pattern is optional or a greedy possibly-empty run, so the match
always succeeds and no backtracking occurs.  `parseImportTail` consumes,
after the literal, in order: one optional non-word character, the optional
literal `url`, an optional opening parenthesis, an optional quote, the
greedy run of characters outside the class of `)`/quote characters (this
run is submatch 2), an optional quote and an optional closing parenthesis.
Search resumes after the consumed match, as `FindAll` does. -/

/-- The Go word class `\w` = `[0-9A-Za-z_]`; `\W` is its complement. -/
def isWordChar (c : Char) : Bool := c.isAlphanum || c = '_'

/-- Characters that end submatch 2: the class `[^\x29 quote quote]`
excludes a closing parenthesis, a double quote and a single quote. -/
def isImportStop (c : Char) : Bool := c = ')' || c = '"' || c = '\''

/-- Consumes one leading character when it satisfies `p` (an optional
regex element such as `\W?` or `\(?`). -/
def consumeOpt (p : Char → Bool) : List Char → List Char
  | [] => []
  | c :: cs => if p c then cs else c :: cs

/-- The characters of the literal `@import`. -/
def importLit : List Char := ['@', 'i', 'm', 'p', 'o', 'r', 't']

/-- Consumes one match of the tail of `cssRegexp` after the `@import`
literal and returns (submatch 2, the unconsumed remainder). -/
def parseImportTail (cs : List Char) : List Char × List Char :=
  let a := consumeOpt (fun c => !isWordChar c) cs
  let b := if isPref ['u', 'r', 'l'] a then a.drop 3 else a
  let c := consumeOpt (fun x => x = '(') b
  let d := consumeOpt (fun x => x = '\'' || x = '"') c
  let cap := d.takeWhile (fun x => !isImportStop x)
  let e := d.dropWhile (fun x => !isImportStop x)
  let f := consumeOpt (fun x => x = '\'' || x = '"') e
  let g := consumeOpt (fun x => x = ')') f
  (cap, g)

/-- Scans for successive non-overlapping matches of `cssRegexp` and
collects submatch 2 of each, in source order; `fuel` bounds the recursion
(every step consumes at least one character, so `s.length` suffices). -/
def extractImportsAux : Nat → List Char → List (List Char)
  | 0, _ => []
  | _ + 1, [] => []
  | fuel + 1, c :: cs =>
    if isPref importLit (c :: cs) then
      let t := parseImportTail ((c :: cs).drop 7)
      t.1 :: extractImportsAux fuel t.2
    else extractImportsAux fuel cs

/-- Embeds the per-text `@import` target extraction of the style and
response handlers: `cssRegexp.FindAllStringSubmatch(text, -1)` with
submatch 2 of each match (main.go:321-323, 353-355). -/
def extractImports (s : String) : List String :=
  (extractImportsAux s.data.length s.data).map (fun l => String.mk l)

/-! ### The Report (`ScanResult`, main.go:18-35) and the crawl handlers

The mutex field is not part of the data; lock usage is modelled separately
below for the concurrency claim.  Each handler is embedded as a pure state
transformer on `ScanResult`; the `e.Request.Visit` calls and the verbose
prints are external effects that do not touch the Report. -/

/-- Embeds the `ScanResult` struct (main.go:18-35) minus its mutex. -/
structure ScanResult where
  visits : Nat
  googleAnalyticsScriptSrc : Bool
  googleAnalyticsScript : Bool
  googleAnalyticsIFrame : Bool
  googleFontsLink : Bool
  googleFontsCss : List String
  googleFontsStyle : List String
  googleFontsScript : Bool
  otherLinks : List String
  otherScripts : List String
  otherIFrames : List String
  otherCss : List String
  otherPreconnect : List String
  otherStyle : List String
  dnsPrefetch : Bool
deriving DecidableEq

/-- The zero value `var scanResult ScanResult` (main.go:185). -/
def emptyScan : ScanResult :=
  { visits := 0
    googleAnalyticsScriptSrc := false
    googleAnalyticsScript := false
    googleAnalyticsIFrame := false
    googleFontsLink := false
    googleFontsCss := []
    googleFontsStyle := []
    googleFontsScript := false
    otherLinks := []
    otherScripts := []
    otherIFrames := []
    otherCss := []
    otherPreconnect := []
    otherStyle := []
    dnsPrefetch := false }

/-- Embeds the guarded append `if !slices.Contains(xs, v) { xs = append(xs, v) }`
used for every dedup set (main.go:225-227, 243-245, 268-270, 307-309,
325-327, 335-337, 357-359, 367-369). -/
def dedupAppend (xs : List String) (v : String) : List String :=
  if v ∈ xs then xs else xs ++ [v]

/-- Embeds the `OnRequest` handler body (main.go:198-207): the visit
counter is a `uint32` and increments modulo 2^32. -/
def requestHandler (r : ScanResult) : ScanResult :=
  { r with visits := (r.visits + 1) % 2 ^ 32 }

/-- Embeds the `OnHTML("link[href]")` handler body (main.go:209-251). -/
def linkHandler (baseUrl domain rel href : String) (r : ScanResult) : ScanResult :=
  if rel = "dns-prefetch" then { r with dnsPrefetch := true }
  else if rel = "preconnect" ∧ isSameDomain href baseUrl domain = false then
    { r with otherPreconnect := dedupAppend r.otherPreconnect href }
  else if goContains href "fonts.googleapis.com" || goContains href "fonts.gstatic.com" then
    { r with googleFontsLink := true }
  else if isSameDomain href baseUrl domain = false then
    { r with otherLinks := dedupAppend r.otherLinks href }
  else r

/-- Embeds the inline-text checks of the `OnHTML("script")` handler
(main.go:277-289), reached when `src` is empty or same-origin. -/
def scriptTextChecks (text : String) (r : ScanResult) : ScanResult :=
  if goContains text "googletagmanager.com" then { r with googleAnalyticsScript := true }
  else if goContains text "fonts.googleapis.com" then { r with googleFontsScript := true }
  else r

/-- Embeds the `OnHTML("script")` handler body (main.go:253-290). -/
def scriptHandler (baseUrl domain src text : String) (r : ScanResult) : ScanResult :=
  if src = "" then scriptTextChecks text r
  else if goContains src "googletagmanager.com" then { r with googleAnalyticsScriptSrc := true }
  else if isSameDomain src baseUrl domain = false then
    { r with otherScripts := dedupAppend r.otherScripts src }
  else scriptTextChecks text r

/-- Embeds the `OnHTML("iframe[src]")` handler body (main.go:292-316). -/
def iframeHandler (baseUrl domain src : String) (r : ScanResult) : ScanResult :=
  if src = "" then r
  else if goContains src "googletagmanager.com" then { r with googleAnalyticsIFrame := true }
  else if isSameDomain src baseUrl domain = false then
    { r with otherIFrames := dedupAppend r.otherIFrames src }
  else r

/-- Embeds one iteration of the submatch loop of the `OnHTML("style")`
handler (main.go:322-343): note the marker tested is `googleapis.com`. -/
def styleImportStep (baseUrl domain : String) (r : ScanResult) (sm : String) : ScanResult :=
  if goContains sm "googleapis.com" then
    { r with googleFontsStyle := dedupAppend r.googleFontsStyle sm }
  else if isSameDomain sm baseUrl domain = false then
    { r with otherStyle := dedupAppend r.otherStyle sm }
  else r

/-- Embeds the `OnHTML("style")` handler body (main.go:318-346); the
`MatchString` guard is equivalent to the import list being nonempty, and
folding over an empty list is the identity, so it needs no extra test. -/
def styleHandler (baseUrl domain text : String) (r : ScanResult) : ScanResult :=
  if text = "" then r
  else (extractImports text).foldl (styleImportStep baseUrl domain) r

/-- Embeds one iteration of the submatch loop of the `OnResponse` handler
(main.go:354-374): the marker tested is again `googleapis.com`. -/
def cssImportStep (baseUrl domain : String) (r : ScanResult) (sm : String) : ScanResult :=
  if goContains sm "googleapis.com" then
    { r with googleFontsCss := dedupAppend r.googleFontsCss sm }
  else if isSameDomain sm baseUrl domain = false then
    { r with otherCss := dedupAppend r.otherCss sm }
  else r

/-- Embeds the `OnResponse` handler body (main.go:348-378), gated on the
request path ending in `css`. -/
def responseHandler (baseUrl domain path body : String) (r : ScanResult) : ScanResult :=
  if goEndsWith path "css" then (extractImports body).foldl (cssImportStep baseUrl domain) r
  else r

/-! ### Lock usage of the handlers (for the concurrency claim)

Each registered callback is abstracted to its sequence of lock operations
and Report mutation sites, in source order; `defer mu.Unlock()` releases
at the end of the callback.  A mutation site is listed by the field it
writes, whether or not the branch runs on a given event. -/

/-- One step of a callback: acquiring or releasing `scanResult.mu`, or a
write to a field of the shared `ScanResult`. -/
inductive HandlerStep
  | lock
  | unlock
  | mutate (field : String)
deriving DecidableEq

/-- Lock steps of the `OnRequest` callback (main.go:198-207). -/
def onRequestSteps : List HandlerStep :=
  [.lock, .mutate "visits", .unlock]

/-- Lock steps of the `OnHTML("link[href]")` callback (main.go:209-251). -/
def onLinkSteps : List HandlerStep :=
  [.lock, .mutate "dnsPrefetch", .mutate "otherPreconnect",
   .mutate "googleFontsLink", .mutate "otherLinks", .unlock]

/-- Lock steps of the `OnHTML("script")` callback (main.go:253-290). -/
def onScriptSteps : List HandlerStep :=
  [.lock, .mutate "googleAnalyticsScriptSrc", .mutate "otherScripts",
   .mutate "googleAnalyticsScript", .mutate "googleFontsScript", .unlock]

/-- Lock steps of the `OnHTML("iframe[src]")` callback (main.go:292-316). -/
def onIframeSteps : List HandlerStep :=
  [.lock, .mutate "googleAnalyticsIFrame", .mutate "otherIFrames", .unlock]

/-- Lock steps of the `OnHTML("style")` callback (main.go:318-346): the
body holds no `mu.Lock()` call at all. -/
def onStyleSteps : List HandlerStep :=
  [.mutate "googleFontsStyle", .mutate "otherStyle"]

/-- Lock steps of the `OnResponse` callback (main.go:348-378): the body
holds no `mu.Lock()` call at all. -/
def onResponseSteps : List HandlerStep :=
  [.mutate "googleFontsCss", .mutate "otherCss"]

/-- Walks a callback with the current lock depth and checks that every
mutation site sits at positive depth. -/
def mutationsLockedFrom : Nat → List HandlerStep → Bool
  | _, [] => true
  | d, .lock :: ts => mutationsLockedFrom (d + 1) ts
  | d, .unlock :: ts => mutationsLockedFrom (d - 1) ts
  | d, .mutate _ :: ts => if 0 < d then mutationsLockedFrom d ts else false

/-- A callback performs every Report mutation while holding the lock. -/
def locksAllMutations (t : List HandlerStep) : Bool := mutationsLockedFrom 0 t

/-! ### The command-line entry (`main`, main.go:386-397) -/

/-- Outcome of `main` after flag parsing: either the usage message and
`os.Exit` with the given status, or a scan of the given URL. -/
inductive MainAction
  | usageExit (message : String) (status : Nat)
  | runScan (url : String)
deriving DecidableEq

/-- The usage line printed when the URL argument is missing (main.go:392). -/
def usageMessage : String := "Usage: threepwoods-colly [-d 3] [-v] http://website.com"

/-- Embeds `main` after flag parsing (main.go:390-396): `args` is
`flag.Args()`, the positional arguments left after the flags. -/
def mainGo (args : List String) : MainAction :=
  match args with
  | [] => .usageExit usageMessage 1
  | u :: _ => .runScan u

/-! ### The local-path grammar in the words of the spec

These definitions follow the claim wording (spec 4.1): optional leading
slash, one or more path segments over `[A-Za-z0-9-_.]`, an optional
fragment or query suffix, with fragment-only and query-only references
accepted.  They are the spec side of a refinement comparison against the
source matcher `localScan`. -/

/-- Path segments joined by single slashes. -/
def joinSegs : List (List Char) → List Char
  | [] => []
  | [s] => s
  | s :: t :: r => s ++ '/' :: joinSegs (t :: r)

/-- A path segment in the words of the spec: nonempty, over `[A-Za-z0-9-_.]`. -/
def SegOk (seg : List Char) : Prop := seg ≠ [] ∧ ∀ c ∈ seg, isSegChar c = true

/-- A fragment or query suffix in the words of the spec: absent, or `#`
or `?` followed by anything. -/
def SuffixShape (sfx : List Char) : Prop :=
  sfx = [] ∨ ∃ rest, sfx = '#' :: rest ∨ sfx = '?' :: rest

/-- The suffix shape narrowed to hold no newline, which is what Go regex
`.*` actually accepts. -/
def SuffixShapeNN (sfx : List Char) : Prop :=
  sfx = [] ∨ ∃ rest, '\n' ∉ rest ∧ (sfx = '#' :: rest ∨ sfx = '?' :: rest)

/-- The local-path grammar exactly as the claim words it: an optional
leading slash (only with at least one segment), segments joined by
slashes, an optional `#...` or `?...` suffix; fragment-only and
query-only references have no segments and no leading slash. -/
def SpecLocalPath (p : List Char) : Prop :=
  ∃ (lead : Bool) (segs : List (List Char)) (sfx : List Char),
    (∀ seg ∈ segs, SegOk seg) ∧ SuffixShape sfx ∧ (lead = true → segs ≠ []) ∧
    p = (if lead then '/' :: joinSegs segs else joinSegs segs) ++ sfx

/-- The same grammar with the suffix free of newlines. -/
def SpecLocalPathNN (p : List Char) : Prop :=
  ∃ (lead : Bool) (segs : List (List Char)) (sfx : List Char),
    (∀ seg ∈ segs, SegOk seg) ∧ SuffixShapeNN sfx ∧ (lead = true → segs ≠ []) ∧
    p = (if lead then '/' :: joinSegs segs else joinSegs segs) ++ sfx

/-- Characters that may appear in the host component of a reference; the
host of a protocol-relative reference ends at the first `/`, `:`, `?`
or `#`. -/
def isHostChar (c : Char) : Bool := c != '/' && c != ':' && c != '?' && c != '#'

/-- The host named by a protocol-relative reference `//host...`, in the
words of the claim; `none` when the reference does not start with `//`. -/
def refHost (s : String) : Option String :=
  match s.data with
  | '/' :: '/' :: rest => some (String.mk (rest.takeWhile isHostChar))
  | _ => none

/-- The Report invariant of the spec: every string-valued finding set of
the `ScanResult` holds no duplicates. -/
def ReportInv (r : ScanResult) : Prop :=
  r.googleFontsCss.Nodup ∧ r.googleFontsStyle.Nodup ∧ r.otherLinks.Nodup ∧
  r.otherScripts.Nodup ∧ r.otherIFrames.Nodup ∧ r.otherCss.Nodup ∧
  r.otherPreconnect.Nodup ∧ r.otherStyle.Nodup

/-! ### Helper lemmas -/

theorem localScan_seg_cons (c : Char) (cs : List Char) (h : isSegChar c = true) :
    localScan (c :: cs) = localScan cs := by
  have h1 : ¬(c = '#' ∨ c = '?') := by
    rintro (rfl | rfl) <;> exact absurd h (by decide)
  have h2 : ¬(c = '/') := by rintro rfl; exact absurd h (by decide)
  rw [localScan.eq_def]
  simp [h1, h2, h]

theorem localScan_seg_append (seg cs : List Char) (h : ∀ c ∈ seg, isSegChar c = true) :
    localScan (seg ++ cs) = localScan cs := by
  induction seg with
  | nil => rfl
  | cons c t ih =>
    rw [List.cons_append, localScan_seg_cons c (t ++ cs) (h c (List.mem_cons_self c t))]
    exact ih fun x hx => h x (List.mem_cons_of_mem c hx)

theorem localScan_slash_seg (seg cs : List Char) (hne : seg ≠ [])
    (h : ∀ c ∈ seg, isSegChar c = true) :
    localScan ('/' :: (seg ++ cs)) = localScan cs := by
  obtain ⟨c, t, rfl⟩ : ∃ c t, seg = c :: t := by
    cases seg with
    | nil => exact absurd rfl hne
    | cons c t => exact ⟨c, t, rfl⟩
  have hq : ¬(('/' : Char) = '#' ∨ ('/' : Char) = '?') := by decide
  have hc : isSegChar c = true := h c (List.mem_cons_self c t)
  rw [localScan.eq_def]
  simp only [List.cons_append, if_neg hq, if_pos rfl, hc, Bool.true_and]
  exact localScan_seg_append t cs fun x hx => h x (List.mem_cons_of_mem c hx)

theorem localScan_joined (segs : List (List Char)) (h : ∀ seg ∈ segs, SegOk seg) :
    ∀ cs : List Char,
      localScan (joinSegs segs ++ cs) = localScan cs ∧
      (segs ≠ [] → localScan ('/' :: (joinSegs segs ++ cs)) = localScan cs) := by
  induction segs with
  | nil =>
    intro cs
    exact ⟨rfl, fun hne => absurd rfl hne⟩
  | cons s rest ih =>
    intro cs
    have hs : SegOk s := h s (List.mem_cons_self s rest)
    have hrest : ∀ seg ∈ rest, SegOk seg := fun seg hm => h seg (List.mem_cons_of_mem s hm)
    cases rest with
    | nil =>
      refine ⟨?_, fun _ => ?_⟩
      · exact localScan_seg_append s cs hs.2
      · exact localScan_slash_seg s cs hs.1 hs.2
    | cons t r =>
      have hjoin : joinSegs (s :: t :: r) = s ++ '/' :: joinSegs (t :: r) := rfl
      have hne : (t :: r : List (List Char)) ≠ [] := by simp
      have step : localScan (joinSegs (s :: t :: r) ++ cs) = localScan cs := by
        rw [hjoin, List.append_assoc, List.cons_append]
        rw [localScan_seg_append s _ hs.2]
        exact (ih hrest cs).2 hne
      refine ⟨step, fun _ => ?_⟩
      have : joinSegs (s :: t :: r) ++ cs = s ++ ('/' :: (joinSegs (t :: r) ++ cs)) := by
        rw [hjoin, List.append_assoc, List.cons_append]
      rw [this, localScan_slash_seg s _ hs.1 hs.2]
      exact (ih hrest cs).2 hne

theorem isPref_cons (c : Char) (p l : List Char) (h : isPref (c :: p) l = true) :
    ∃ t, l = c :: t ∧ isPref p t = true := by
  cases l with
  | nil => exact absurd h (by simp [isPref])
  | cons b bs =>
    simp only [isPref, Bool.and_eq_true, decide_eq_true_eq] at h
    exact ⟨bs, by rw [h.1], h.2⟩

theorem noNewline_of_not_mem (rest : List Char) (h : '\n' ∉ rest) : noNewline rest = true := by
  simp only [noNewline, List.all_eq_true, bne_iff_ne, ne_eq]
  intro x hx heq
  exact h (heq ▸ hx)

theorem localScan_suffix (sfx : List Char) (h : SuffixShapeNN sfx) : localScan sfx = true := by
  rcases h with rfl | ⟨rest, hnl, rfl | rfl⟩
  · rfl
  · rw [localScan.eq_def]
    simp only [if_pos (Or.inl rfl)]
    exact noNewline_of_not_mem rest hnl
  · rw [localScan.eq_def]
    simp only [if_pos (Or.inr rfl)]
    exact noNewline_of_not_mem rest hnl

theorem mem_dedupAppend_self (xs : List String) (v : String) : v ∈ dedupAppend xs v := by
  unfold dedupAppend
  split
  · assumption
  · exact List.mem_append_right xs (List.mem_singleton_self v)

theorem dedupAppend_nodup (xs : List String) (v : String) (h : xs.Nodup) :
    (dedupAppend xs v).Nodup := by
  unfold dedupAppend
  split
  · exact h
  · next hv => simp [List.nodup_append, h, hv]

theorem dedupAppend_take (xs : List String) (w : String) :
    (dedupAppend xs w).take xs.length = xs := by
  unfold dedupAppend
  split
  · exact List.take_length xs
  · exact List.take_left xs [w]

theorem reportInv_link (baseUrl domain rel href : String) (r : ScanResult)
    (h : ReportInv r) : ReportInv (linkHandler baseUrl domain rel href r) := by
  obtain ⟨h1, h2, h3, h4, h5, h6, h7, h8⟩ := h
  unfold linkHandler
  split_ifs
  · exact ⟨h1, h2, h3, h4, h5, h6, h7, h8⟩
  · exact ⟨h1, h2, h3, h4, h5, h6, dedupAppend_nodup _ _ h7, h8⟩
  · exact ⟨h1, h2, h3, h4, h5, h6, h7, h8⟩
  · exact ⟨h1, h2, dedupAppend_nodup _ _ h3, h4, h5, h6, h7, h8⟩
  · exact ⟨h1, h2, h3, h4, h5, h6, h7, h8⟩

theorem reportInv_scriptText (text : String) (r : ScanResult)
    (h : ReportInv r) : ReportInv (scriptTextChecks text r) := by
  obtain ⟨h1, h2, h3, h4, h5, h6, h7, h8⟩ := h
  unfold scriptTextChecks
  split_ifs <;> exact ⟨h1, h2, h3, h4, h5, h6, h7, h8⟩

theorem reportInv_script (baseUrl domain src text : String) (r : ScanResult)
    (h : ReportInv r) : ReportInv (scriptHandler baseUrl domain src text r) := by
  unfold scriptHandler
  split_ifs
  · exact reportInv_scriptText text r h
  · obtain ⟨h1, h2, h3, h4, h5, h6, h7, h8⟩ := h
    exact ⟨h1, h2, h3, h4, h5, h6, h7, h8⟩
  · obtain ⟨h1, h2, h3, h4, h5, h6, h7, h8⟩ := h
    exact ⟨h1, h2, h3, dedupAppend_nodup _ _ h4, h5, h6, h7, h8⟩
  · exact reportInv_scriptText text r h

theorem reportInv_iframe (baseUrl domain src : String) (r : ScanResult)
    (h : ReportInv r) : ReportInv (iframeHandler baseUrl domain src r) := by
  obtain ⟨h1, h2, h3, h4, h5, h6, h7, h8⟩ := h
  unfold iframeHandler
  split_ifs
  · exact ⟨h1, h2, h3, h4, h5, h6, h7, h8⟩
  · exact ⟨h1, h2, h3, h4, h5, h6, h7, h8⟩
  · exact ⟨h1, h2, h3, h4, dedupAppend_nodup _ _ h5, h6, h7, h8⟩
  · exact ⟨h1, h2, h3, h4, h5, h6, h7, h8⟩

theorem reportInv_styleStep (baseUrl domain : String) (r : ScanResult) (sm : String)
    (h : ReportInv r) : ReportInv (styleImportStep baseUrl domain r sm) := by
  obtain ⟨h1, h2, h3, h4, h5, h6, h7, h8⟩ := h
  unfold styleImportStep
  split_ifs
  · exact ⟨h1, dedupAppend_nodup _ _ h2, h3, h4, h5, h6, h7, h8⟩
  · exact ⟨h1, h2, h3, h4, h5, h6, h7, dedupAppend_nodup _ _ h8⟩
  · exact ⟨h1, h2, h3, h4, h5, h6, h7, h8⟩

theorem reportInv_cssStep (baseUrl domain : String) (r : ScanResult) (sm : String)
    (h : ReportInv r) : ReportInv (cssImportStep baseUrl domain r sm) := by
  obtain ⟨h1, h2, h3, h4, h5, h6, h7, h8⟩ := h
  unfold cssImportStep
  split_ifs
  · exact ⟨dedupAppend_nodup _ _ h1, h2, h3, h4, h5, h6, h7, h8⟩
  · exact ⟨h1, h2, h3, h4, h5, dedupAppend_nodup _ _ h6, h7, h8⟩
  · exact ⟨h1, h2, h3, h4, h5, h6, h7, h8⟩

theorem reportInv_foldl (f : ScanResult → String → ScanResult)
    (hf : ∀ r v, ReportInv r → ReportInv (f r v)) (l : List String) (r : ScanResult)
    (h : ReportInv r) : ReportInv (l.foldl f r) := by
  induction l generalizing r with
  | nil => exact h
  | cons v t ih => exact ih (f r v) (hf r v h)

theorem reportInv_style (baseUrl domain text : String) (r : ScanResult)
    (h : ReportInv r) : ReportInv (styleHandler baseUrl domain text r) := by
  unfold styleHandler
  split_ifs
  · exact h
  · exact reportInv_foldl _ (reportInv_styleStep baseUrl domain) _ r h

theorem reportInv_response (baseUrl domain path body : String) (r : ScanResult)
    (h : ReportInv r) : ReportInv (responseHandler baseUrl domain path body r) := by
  unfold responseHandler
  split_ifs
  · exact reportInv_foldl _ (reportInv_cssStep baseUrl domain) _ r h
  · exact h

theorem reportInv_request (r : ScanResult) (h : ReportInv r) :
    ReportInv (requestHandler r) := h

/-! ### Claim theorems -/

/-- C8: `isSameDomain("about:blank", baseUrl, domain)` returns true for
every base URL and domain: the final equality check of the resolver
(main.go:155-157) accepts the literal regardless of the target. -/
theorem about_blank_always_same_origin (baseUrl domain : String) :
    isSameDomain "about:blank" baseUrl domain = true := by
  unfold isSameDomain isSameDomainL
  split_ifs with h1 h2 h3 h4
  · rfl
  · rfl
  · rfl
  · rfl
  · exact absurd (by decide : String.data "about:blank" = aboutBlankChars) h4

/-- C7: a link event with `rel = "dns-prefetch"` sets the `dnsPrefetch`
flag and changes nothing else of the Report, whatever the href is
(main.go:216-222 returns before any other classification). -/
theorem dns_prefetch_short_circuits (baseUrl domain href : String) (r : ScanResult) :
    linkHandler baseUrl domain "dns-prefetch" href r = { r with dnsPrefetch := true } := by
  unfold linkHandler
  rw [if_pos rfl]

/-- C9: invoked with no positional URL argument, the program prints the
usage line and exits with status 1 (nonzero) instead of running a scan
(main.go:390-395); with an argument it scans that URL. -/
theorem missing_url_is_usage_error :
    mainGo [] = .usageExit usageMessage 1 ∧
    (∀ url : String, mainGo [] ≠ MainAction.runScan url) ∧
    (1 : Nat) ≠ 0 ∧
    (∀ (url : String) (rest : List String), mainGo (url :: rest) = .runScan url) := by
  refine ⟨rfl, ?_, by decide, fun url rest => rfl⟩
  intro url h
  exact absurd h (by simp [mainGo, usageMessage])

/-- C2 (code bug): the `OnRequest`, link, script and iframe callbacks
mutate the Report only while holding `scanResult.mu`, but the inline
`<style>` callback (main.go:318-346) and the `OnResponse` callback
(main.go:348-378) mutate their dedup sets with the lock never taken. -/
theorem style_and_response_mutate_unlocked :
    locksAllMutations onRequestSteps = true ∧
    locksAllMutations onLinkSteps = true ∧
    locksAllMutations onScriptSteps = true ∧
    locksAllMutations onIframeSteps = true ∧
    locksAllMutations onStyleSteps = false ∧
    locksAllMutations onResponseSteps = false := by decide

/-- C6: `extractImports` on the two reference inputs of the spec yields
exactly the quoted / url-wrapped targets in source order, tolerating
presence and absence of the `url()` wrapper and of quote characters. -/
theorem extract_imports_reference_inputs :
    extractImports "@import url('https://fonts.googleapis.com/css?family=Roboto');" =
      ["https://fonts.googleapis.com/css?family=Roboto"] ∧
    extractImports "@import \"a.css\"; @import url(b.css);" = ["a.css", "b.css"] := by decide

theorem empty_ref_same_origin (baseUrl domain : String) :
    isSameDomain "" baseUrl domain = true := by
  unfold isSameDomain isSameDomainL
  rw [if_pos (by decide : localScan (String.data "") = true)]

/-- C10 (counterexample): the empty href is classified same-origin, yet a
link event with `rel = "dns-prefetch"` and an empty href still sets the
`dnsPrefetch` flag of the Report (main.go:216-222 runs before any
same-origin reasoning), so "never recorded in any Report bucket or flag"
fails as stated. -/
theorem empty_href_still_sets_dns_prefetch :
    isSameDomain "" "https://example.com" "example.com" = true ∧
    emptyScan.dnsPrefetch = false ∧
    (linkHandler "https://example.com" "example.com" "dns-prefetch" "" emptyScan).dnsPrefetch
      = true := by decide

/-- C10 (amended): `isSameDomain("", baseUrl, domain)` is true for every
base URL and domain, and a link event with empty href never appends to
any dedup bucket and never sets a provider flag: the Report is unchanged,
except that the `dnsPrefetch` flag is still set when the element carries
`rel = "dns-prefetch"`. -/
theorem empty_href_never_recorded (baseUrl domain rel : String) (r : ScanResult) :
    isSameDomain "" baseUrl domain = true ∧
    (linkHandler baseUrl domain rel "" r = { r with dnsPrefetch := true } ∨
     linkHandler baseUrl domain rel "" r = r) := by
  have h0 : isSameDomain "" baseUrl domain = true := empty_ref_same_origin baseUrl domain
  refine ⟨h0, ?_⟩
  unfold linkHandler
  by_cases h1 : rel = "dns-prefetch"
  · left
    rw [if_pos h1]
  · right
    rw [if_neg h1]
    rw [if_neg (by rintro ⟨-, hf⟩; rw [h0] at hf; cases hf)]
    have h3 : (goContains "" "fonts.googleapis.com" || goContains "" "fonts.gstatic.com")
        = false := by decide
    rw [h3]
    simp only [Bool.false_eq_true, if_false]
    rw [if_neg (by simp [h0])]

/-- C1 (counterexample): an `@import` target containing the GoogleFonts
marker `fonts.gstatic.com` is NOT added to the fonts-via-style dedup set
by the style handler: it lands in the third-party style set, because the
handler tests only the substring `googleapis.com` (main.go:324). -/
theorem gstatic_import_not_a_fonts_finding :
    goContains "https://fonts.gstatic.com/s/a.woff2" "fonts.gstatic.com" = true ∧
    (styleImportStep "https://example.com" "example.com" emptyScan
      "https://fonts.gstatic.com/s/a.woff2").googleFontsStyle = [] ∧
    (styleImportStep "https://example.com" "example.com" emptyScan
      "https://fonts.gstatic.com/s/a.woff2").otherStyle =
      ["https://fonts.gstatic.com/s/a.woff2"] := by decide

/-- C1 (amended): an `@import` target extracted from an inline style or a
fetched CSS body is appended to the corresponding fonts dedup set if and
only if it contains the substring `googleapis.com`; otherwise it goes to
the third-party set exactly when the origin resolver classifies it
third-party, and is dropped when same-origin. -/
theorem css_import_marker_classification (baseUrl domain sm : String) (r : ScanResult)
    (h1 : sm ∉ r.googleFontsStyle) (h2 : sm ∉ r.otherStyle)
    (h3 : sm ∉ r.googleFontsCss) (h4 : sm ∉ r.otherCss) :
    (sm ∈ (styleImportStep baseUrl domain r sm).googleFontsStyle ↔
      goContains sm "googleapis.com" = true) ∧
    (sm ∈ (styleImportStep baseUrl domain r sm).otherStyle ↔
      (goContains sm "googleapis.com" = false ∧ isSameDomain sm baseUrl domain = false)) ∧
    (sm ∈ (cssImportStep baseUrl domain r sm).googleFontsCss ↔
      goContains sm "googleapis.com" = true) ∧
    (sm ∈ (cssImportStep baseUrl domain r sm).otherCss ↔
      (goContains sm "googleapis.com" = false ∧ isSameDomain sm baseUrl domain = false)) := by
  unfold styleImportStep cssImportStep
  cases hm : goContains sm "googleapis.com" <;>
    cases ho : isSameDomain sm baseUrl domain <;>
      simp [hm, ho, mem_dedupAppend_self, h1, h2, h3, h4]

/-- Witness for the amended C1 at a concrete input: a maps.googleapis.com
target (no fonts host at all) is recorded as a fonts finding. -/
theorem css_import_marker_classification_witness :
    "https://maps.googleapis.com/maps.css" ∈
      (styleImportStep "https://example.com" "example.com" emptyScan
        "https://maps.googleapis.com/maps.css").googleFontsStyle :=
  ((css_import_marker_classification "https://example.com" "example.com"
      "https://maps.googleapis.com/maps.css" emptyScan
      (by decide) (by decide) (by decide) (by decide)).1).mpr (by decide)

/-- C3 (counterexample): `//example.com.evil.net` names the host
`example.com.evil.net`, different from the target host `example.com`, yet
`isSameDomain` accepts it, because `strings.HasPrefix(url, "//"+domain)`
(main.go:149) is a raw string-prefix test. -/
theorem evil_host_passes_prefix_check :
    refHost "//example.com.evil.net" = some "example.com.evil.net" ∧
    ("example.com.evil.net" : String) ≠ "example.com" ∧
    isSameDomain "//example.com.evil.net" "https://example.com" "example.com" = true := by
  refine ⟨by decide, by decide, by decide⟩

theorem localScan_double_slash (t : List Char) : localScan ('/' :: '/' :: t) = false := by
  rw [localScan.eq_def]
  simp [isSegChar]

/-- C3 (amended): for a protocol-relative reference (a string starting
with `//`) checked against a target whose base origin is an http(s) URL,
`isSameDomain` returns true exactly when `"//" + domain` is a character
prefix of the reference.  In particular `//<host>...` with the target
host is same-origin, and `//<other-host>...` is third-party unless the
target host is a string prefix of the reference after `//` (as in
`//example.com.evil.net` against host `example.com`). -/
theorem protocol_relative_host_matching (s baseUrl domain : String)
    (h1 : ∃ t, s.data = '/' :: '/' :: t)
    (h2 : goStartsWith baseUrl "http" = true) :
    (isSameDomain s baseUrl domain = true ↔ goStartsWith s ("//" ++ domain) = true) := by
  obtain ⟨t, hs⟩ := h1
  have hscan : localScan s.data = false := by rw [hs]; exact localScan_double_slash t
  have hhttp : String.data "http" = 'h' :: ['t', 't', 'p'] := by decide
  have hb : isPref baseUrl.data s.data = false := by
    unfold goStartsWith at h2
    rw [hhttp] at h2
    obtain ⟨u, hu, -⟩ := isPref_cons 'h' _ _ h2
    rw [hs, hu]
    simp [isPref]
  have hab : (s.data = aboutBlankChars) ↔ False := by rw [hs]; simp [aboutBlankChars]
  have hd : ("//" ++ domain).data = '/' :: '/' :: domain.data := by
    rw [String.data_append]
    rfl
  cases hp : isPref ('/' :: '/' :: domain.data) s.data with
  | false => simp [isSameDomain, isSameDomainL, goStartsWith, hd, hscan, hb, hab, hp]
  | true => simp [isSameDomain, isSameDomainL, goStartsWith, hd, hscan, hp]

/-- Witness for the amended C3 at concrete inputs: a protocol-relative
reference to the target host itself is same-origin. -/
theorem protocol_relative_host_matching_witness :
    isSameDomain "//example.com/x" "https://example.com" "example.com" = true :=
  (protocol_relative_host_matching "//example.com/x" "https://example.com"
    "example.com" ⟨String.data "example.com/x", by decide⟩ (by decide)).mpr (by decide)

/-- C5 (counterexample): `#a` + newline + `b` fits the claimed grammar
(fragment-only reference, suffix `#...`), but Go regex `.*` does not
cross a newline, so `isSameDomain` rejects it and it falls through to
the third-party rules, all of which fail for this target. -/
theorem newline_suffix_breaks_local_path_claim :
    SpecLocalPath (String.data "#a\nb") ∧
    isSameDomain "#a\nb" "https://example.com" "example.com" = false := by
  constructor
  · refine ⟨false, [], '#' :: ['a', '\n', 'b'], ?_, ?_, ?_, ?_⟩
    · intro seg hm
      exact absurd hm (List.not_mem_nil seg)
    · exact Or.inr ⟨['a', '\n', 'b'], Or.inl rfl⟩
    · intro h
      exact absurd h Bool.false_ne_true
    · decide
  · decide

/-- C5 (amended): every reference fitting the local-path grammar of the
spec — optional leading slash, one or more segments over
`[A-Za-z0-9-_.]`, optional `#...` or `?...` suffix free of newlines,
fragment-only and query-only references included — is classified
same-origin by `isSameDomain`, whatever the target. -/
theorem local_path_grammar_same_origin (s baseUrl domain : String)
    (h : SpecLocalPathNN s.data) :
    isSameDomain s baseUrl domain = true := by
  obtain ⟨lead, segs, sfx, hsegs, hsfx, hlead, hp⟩ := h
  have hsuf : localScan sfx = true := localScan_suffix sfx hsfx
  have hscan : localScan s.data = true := by
    rw [hp]
    cases lead with
    | false =>
      rw [if_neg Bool.false_ne_true]
      exact ((localScan_joined segs hsegs sfx).1).trans hsuf
    | true =>
      rw [if_pos rfl, List.cons_append]
      exact (((localScan_joined segs hsegs sfx).2) (hlead rfl)).trans hsuf
  unfold isSameDomain isSameDomainL
  rw [if_pos hscan]

/-- Witness for the amended C5 at a concrete input: a relative path with
a query suffix is same-origin against an unrelated target. -/
theorem local_path_grammar_same_origin_witness :
    isSameDomain "contact.html?x=1" "https://other.example" "other.example" = true :=
  local_path_grammar_same_origin _ _ _
    ⟨false, [['c', 'o', 'n', 't', 'a', 'c', 't', '.', 'h', 't', 'm', 'l']],
     '?' :: ['x', '=', '1'],
     by intro seg hm; rw [List.mem_singleton] at hm; subst hm; exact ⟨by decide, by decide⟩,
     Or.inr ⟨['x', '=', '1'], by decide, Or.inr rfl⟩, by decide, by decide⟩

/-- C4: the dedup buckets behave as ordered sets and every handler keeps
them duplicate-free: inserting a value twice starting from the empty set
gives the one-element set, an insertion never disturbs the positions of
the values already present (first-seen order), a guarded append keeps
`Nodup`, and every event handler preserves the no-duplicates invariant
of the whole Report. -/
theorem report_dedup_invariant :
    (∀ v : String, dedupAppend (dedupAppend [] v) v = [v]) ∧
    (∀ (xs : List String) (w : String), (dedupAppend xs w).take xs.length = xs) ∧
    (∀ (xs : List String) (v : String), xs.Nodup → (dedupAppend xs v).Nodup) ∧
    (∀ baseUrl domain rel href r, ReportInv r →
      ReportInv (linkHandler baseUrl domain rel href r)) ∧
    (∀ baseUrl domain src text r, ReportInv r →
      ReportInv (scriptHandler baseUrl domain src text r)) ∧
    (∀ baseUrl domain src r, ReportInv r → ReportInv (iframeHandler baseUrl domain src r)) ∧
    (∀ baseUrl domain text r, ReportInv r → ReportInv (styleHandler baseUrl domain text r)) ∧
    (∀ baseUrl domain path body r, ReportInv r →
      ReportInv (responseHandler baseUrl domain path body r)) ∧
    (∀ r, ReportInv r → ReportInv (requestHandler r)) := by
  refine ⟨?_, dedupAppend_take, dedupAppend_nodup, reportInv_link, reportInv_script,
    reportInv_iframe, reportInv_style, reportInv_response, reportInv_request⟩
  intro v
  simp [dedupAppend]
